import Mathlib

/-!
Verification of the winget-cli group-policy resolution core: typed policy
value resolution with current/legacy key fallback, decoding of JSON-encoded
source-policy lists, and certificate-pinning chain validation.

The implementation under test lives in `winget/GroupPolicy.h` and the
certificate component; only its test suite (`AppInstallerCLITests/GroupPolicy.cpp`)
is part of this tree, so each operation is modelled from the specification
(spec.md) and checked against the behaviour the tests pin down.
-/

namespace WingetPolicy

/-- A JSON document, as produced by the external JSON library when parsing a
source-policy payload string. -/
inductive Json where
  | null
  | bool (b : Bool)
  | num (n : Int)
  | str (s : String)
  | arr (elems : List Json)
  | obj (fields : List (String × Json))

/-- Member lookup on a JSON object; `none` on any other JSON kind. -/
def Json.getField : Json → String → Option Json
  | .obj fields, name => fields.lookup name
  | _, _ => none

/-- Extract a JSON string, failing on any other kind. -/
def Json.asString : Json → Option String
  | .str s => some s
  | _ => none

/-- Extract a JSON boolean, failing on any other kind. -/
def Json.asBool : Json → Option Bool
  | .bool b => some b
  | _ => none

/-- Extract a JSON array, failing on any other kind. -/
def Json.asArr : Json → Option (List Json)
  | .arr xs => some xs
  | _ => none

/-- Extract each element of a JSON list as a string, failing if any element
is not a string. -/
def Json.asStringList : List Json → Option (List String)
  | [] => some []
  | x :: xs => do
    let s ← Json.asString x
    let rest ← Json.asStringList xs
    pure (s :: rest)

/-- Extract a JSON array of strings, failing if any element is not a string. -/
def Json.asStringArray (j : Json) : Option (List String) :=
  (j.asArr).bind Json.asStringList

/-- Modelled from the spec: the certificate collaborator (§6) exposes a
certificate as an opaque value with exactly the three compared attributes
(raw public-key bytes, subject name, issuer name). -/
structure Certificate where
  publicKeyBytes : List Nat
  subjectName : String
  issuerName : String
  deriving DecidableEq

/-- A requested pinning validation mode (§3 PinningDetails). -/
inductive PinningValidationType where
  | publicKey
  | subject
  | issuer
  deriving DecidableEq

/-- One pinned position: the set of required validation modes and the
reference certificate whose attributes are compared (§3). -/
structure PinningDetails where
  validation : List PinningValidationType
  certificate : Certificate
  deriving DecidableEq

/-- One alternative pinned chain: an ordered sequence of pinned positions. -/
structure PinningChain where
  details : List PinningDetails
  deriving DecidableEq

/-- Zero or more alternative pinned chains (§3 PinningConfiguration). -/
structure PinningConfiguration where
  chains : List PinningChain
  deriving DecidableEq

/-- The empty pinning configuration: no pinning declared. -/
def PinningConfiguration.empty : PinningConfiguration := ⟨[]⟩

/-- Whether no pinning is declared. -/
def PinningConfiguration.IsEmpty (cfg : PinningConfiguration) : Bool :=
  cfg.chains.isEmpty

/-- Modelled from the spec (§4.3): one pinned position accepts a live
certificate when every requested validation mode matches exactly. -/
def PinningDetails.validateCert (d : PinningDetails) (c : Certificate) : Bool :=
  d.validation.all fun m =>
    match m with
    | .publicKey => c.publicKeyBytes == d.certificate.publicKeyBytes
    | .subject => c.subjectName == d.certificate.subjectName
    | .issuer => c.issuerName == d.certificate.issuerName

/-- Modelled from the spec (§4.3): a pinned chain matches a live chain when
the lengths are equal and every position validates. -/
def PinningChain.validateChain (ch : PinningChain) (live : List Certificate) : Bool :=
  ch.details.length == live.length &&
    (List.zip ch.details live).all fun p => p.1.validateCert p.2

/-- Modelled from the spec (§4.3 validation contract): `Validate` returns true
on an empty configuration, and otherwise exactly when at least one
alternative pinned chain matches the live chain. -/
def PinningConfiguration.Validate (cfg : PinningConfiguration)
    (live : List Certificate) : Bool :=
  if cfg.chains.isEmpty then true
  else cfg.chains.any fun ch => ch.validateChain live

/-- A value stored in the policy configuration store: a DWORD integer or a
string. -/
inductive RegValue where
  | dword (n : Int)
  | sz (s : String)
  deriving DecidableEq

/-- Modelled from the spec: the key-value configuration provider (§6). Named
values map to typed data; sub-keys map to the ordered list of their child
entries. A child entry is the JSON document obtained by parsing its stored
string via the external JSON library, or `none` when that string fails JSON
parsing. Absence of a sub-key (`lookup` gives `none`) is distinguishable from
a present sub-key with zero children (`some []`). -/
structure PolicyStore where
  values : List (String × RegValue)
  subkeys : List (String × List (Option Json))

/-- Decode a store value expected to be an integer; wrong native type gives
no value. -/
def decodeInteger : RegValue → Option Int
  | .dword n => some n
  | _ => none

/-- A value policy's key names: the current name and the optional legacy
alias (§3 ValuePolicyDescriptor). -/
structure ValuePolicyDescriptor where
  currentName : String
  legacyName : Option String
  deriving DecidableEq

/-- Modelled from the spec (§4.1 ValueReader): look up the current key name;
if present (of any native type) decode it and never consult the legacy name;
only if the current name is entirely absent and a legacy name exists, repeat
the lookup and type check at the legacy name. -/
def ReadScalarWith {α : Type} (decode : RegValue → Option α)
    (store : PolicyStore) (d : ValuePolicyDescriptor) : Option α :=
  match store.values.lookup d.currentName with
  | some v => decode v
  | none =>
    match d.legacyName with
    | some legacy => (store.values.lookup legacy).bind decode
    | none => none

/-- The toggle policies (§3 TogglePolicyDescriptor), including the sentinel
`None`. -/
inductive TogglePolicy where
  | None
  | WinGet
  | Settings
  | ExperimentalFeatures
  | LocalManifestFiles
  | HashOverride
  | LocalArchiveMalwareScanOverride
  | DefaultSource
  | MSStoreSource
  | AdditionalSources
  | AllowedSources
  | BypassCertificatePinningForMicrosoftStore
  | WinGetCommandLineInterfaces
  | Configuration
  | ProxyCommandLineOptions
  | McpServer
  deriving DecidableEq

/-- Modelled from the spec: the catalog's current key name for each toggle
policy; the sentinel `None` has no key. -/
def TogglePolicy.regValueName : TogglePolicy → Option String
  | .None => none
  | .WinGet => some "EnableAppInstaller"
  | .Settings => some "EnableSettings"
  | .ExperimentalFeatures => some "EnableExperimentalFeatures"
  | .LocalManifestFiles => some "EnableLocalManifestFiles"
  | .HashOverride => some "EnableHashOverride"
  | .LocalArchiveMalwareScanOverride => some "EnableLocalArchiveMalwareScanOverride"
  | .DefaultSource => some "EnableDefaultSource"
  | .MSStoreSource => some "EnableMicrosoftStoreSource"
  | .AdditionalSources => some "EnableAdditionalSources"
  | .AllowedSources => some "EnableAllowedSources"
  | .BypassCertificatePinningForMicrosoftStore => some "EnableBypassCertificatePinningForMicrosoftStore"
  | .WinGetCommandLineInterfaces => some "EnableWindowsPackageManagerCommandLineInterfaces"
  | .Configuration => some "EnableWindowsPackageManagerConfiguration"
  | .ProxyCommandLineOptions => some "EnableProxyCommandLineOptions"
  | .McpServer => some "EnableMcpServer"

/-- Terminal classification of a toggle policy's resolved value (§3). -/
inductive PolicyState where
  | NotConfigured
  | Enabled
  | Disabled
  deriving DecidableEq

/-- Modelled from the spec (§4.1, §4.4): the sentinel `None` is always
NotConfigured; otherwise the integer at the policy's key is classified as
1 ⇒ Enabled, 0 ⇒ Disabled, and any other value, wrong type, or absence ⇒
NotConfigured. -/
def GetState (store : PolicyStore) (p : TogglePolicy) : PolicyState :=
  match p.regValueName with
  | none => .NotConfigured
  | some name =>
    match (store.values.lookup name).bind decodeInteger with
    | some 1 => .Enabled
    | some 0 => .Disabled
    | _ => .NotConfigured

/-- Modelled from the spec (§4.4): enabled unless explicitly disabled. -/
def IsEnabled (store : PolicyStore) (p : TogglePolicy) : Bool :=
  GetState store p != PolicyState.Disabled

/-- One admin-declared package source (§3 SourceFromPolicy). The C++ field
`Type` is rendered `SourceType` (`Type` is reserved in Lean) and the field
`PinningConfiguration` is rendered `Pinning` to avoid shadowing its type. -/
structure SourceFromPolicy where
  Name : String
  Arg : String
  SourceType : String
  Data : String
  Identifier : String
  TrustLevel : List String
  Explicit : Bool
  Pinning : PinningConfiguration
  deriving DecidableEq

/-- Value of one hexadecimal digit. -/
def hexDigitValue (c : Char) : Option Nat :=
  if '0' ≤ c ∧ c ≤ '9' then some (c.toNat - '0'.toNat)
  else if 'a' ≤ c ∧ c ≤ 'f' then some (c.toNat - 'a'.toNat + 10)
  else if 'A' ≤ c ∧ c ≤ 'F' then some (c.toNat - 'A'.toNat + 10)
  else none

/-- Decode a hex-encoded byte string, two digits per byte; fails on an odd
length or any non-hex character. -/
def hexBytes : List Char → Option (List Nat)
  | [] => some []
  | [_] => none
  | hi :: lo :: rest => do
    let h ← hexDigitValue hi
    let l ← hexDigitValue lo
    let bs ← hexBytes rest
    pure ((16 * h + l) :: bs)

/-- Decode one `Validation` mode token (§6 wire format). -/
def decodeValidationType : Json → Option PinningValidationType
  | .str "publickey" => some .publicKey
  | .str "subject" => some .subject
  | .str "issuer" => some .issuer
  | _ => none

/-- Modelled from the spec (§4.3 parsing contract): decode one pinned
position from `{"Validation": [...], "EmbeddedCertificate": hex}`.
`parseCert` models the external `ParseCertificate` collaborator (§6). -/
def decodePinningDetails (parseCert : List Nat → Option Certificate)
    (j : Json) : Option PinningDetails := do
  let valJson ← (j.getField "Validation").bind Json.asArr
  let modes ← valJson.mapM decodeValidationType
  let hex ← (j.getField "EmbeddedCertificate").bind Json.asString
  let bytes ← hexBytes hex.toList
  let cert ← parseCert bytes
  pure ⟨modes, cert⟩

/-- Decode one alternative from `{"Chain": [...]}`. -/
def decodePinningChain (parseCert : List Nat → Option Certificate)
    (j : Json) : Option PinningChain := do
  let entries ← (j.getField "Chain").bind Json.asArr
  let ds ← entries.mapM (decodePinningDetails parseCert)
  pure ⟨ds⟩

/-- Decode the `Chains` list of a pinning document; `none` when the document
is malformed anywhere. -/
def decodePinningChains (parseCert : List Nat → Option Certificate)
    (j : Json) : Option (List PinningChain) := do
  let chains ← (j.getField "Chains").bind Json.asArr
  chains.mapM (decodePinningChain parseCert)

/-- Modelled from the spec (§4.3): parse a pinning document into a
PinningConfiguration; a malformed document yields the empty configuration
rather than an error. -/
def PinningConfiguration.LoadFrom (parseCert : List Nat → Option Certificate)
    (j : Json) : PinningConfiguration :=
  match decodePinningChains parseCert j with
  | some cs => ⟨cs⟩
  | none => PinningConfiguration.empty

/-- Modelled from the spec (§4.2, §6 wire format): decode one source entry.
All of Name, Arg, Type, Data, Identifier, TrustLevel and Explicit are
mandatory and strictly typed; the optional `CertificatePinning` object is
handed to the pinning parser, and its absence yields the empty
configuration. -/
def ReadSource (parseCert : List Nat → Option Certificate)
    (j : Json) : Option SourceFromPolicy := do
  let name ← (j.getField "Name").bind Json.asString
  let arg ← (j.getField "Arg").bind Json.asString
  let stype ← (j.getField "Type").bind Json.asString
  let data ← (j.getField "Data").bind Json.asString
  let ident ← (j.getField "Identifier").bind Json.asString
  let tl ← (j.getField "TrustLevel").bind Json.asStringArray
  let expl ← (j.getField "Explicit").bind Json.asBool
  let pin :=
    match j.getField "CertificatePinning" with
    | some p => PinningConfiguration.LoadFrom parseCert p
    | none => PinningConfiguration.empty
  pure ⟨name, arg, stype, data, ident, tl, expl, pin⟩

/-- Whether every mandatory field of a source entry is present with the
expected JSON type (§4.2). -/
def mandatoryFieldsValid (j : Json) : Bool :=
  ((j.getField "Name").bind Json.asString).isSome &&
  ((j.getField "Arg").bind Json.asString).isSome &&
  ((j.getField "Type").bind Json.asString).isSome &&
  ((j.getField "Data").bind Json.asString).isSome &&
  ((j.getField "Identifier").bind Json.asString).isSome &&
  ((j.getField "TrustLevel").bind Json.asStringArray).isSome &&
  ((j.getField "Explicit").bind Json.asBool).isSome

/-- Decode one container child: a payload that failed JSON parsing (`none`)
or fails source decoding is dropped. -/
def decodeEntry (parseCert : List Nat → Option Certificate)
    (e : Option Json) : Option SourceFromPolicy :=
  e.bind (ReadSource parseCert)

/-- Modelled from the spec (§4.2 SourceListDecoder): an absent container
sub-key gives no value; a present one gives the list of its successfully
decoded children, malformed children silently dropped, original relative
order preserved. -/
def ReadSourceList (parseCert : List Nat → Option Certificate)
    (store : PolicyStore) (key : String) : Option (List SourceFromPolicy) :=
  (store.subkeys.lookup key).map fun entries =>
    entries.filterMap (decodeEntry parseCert)

/-- Modelled from the spec (§6 wire format): `ToJsonString` serializes the
seven mandatory fields of a source as a JSON document (the rendering of that
document to a string, and its re-parsing, are the external JSON library). -/
def SourceFromPolicy.ToJson (s : SourceFromPolicy) : Json :=
  .obj [("Name", .str s.Name), ("Arg", .str s.Arg), ("Type", .str s.SourceType),
        ("Data", .str s.Data), ("Identifier", .str s.Identifier),
        ("TrustLevel", .arr (s.TrustLevel.map Json.str)),
        ("Explicit", .bool s.Explicit)]

/-- The catalog descriptor for SourceAutoUpdateIntervalInMinutes: the one
value policy with a legacy key alias (§3). -/
def sourceAutoUpdateIntervalDescriptor : ValuePolicyDescriptor :=
  ⟨"SourceAutoUpdateInterval", some "SourceAutoUpdateIntervalInMinutes"⟩

/-- Facade read of the auto-update interval value policy (§4.4 GetValue). -/
def GetIntervalValue (store : PolicyStore) : Option Int :=
  ReadScalarWith decodeInteger store sourceAutoUpdateIntervalDescriptor

/-- Spec-side statement (§4.3): what one requested validation mode demands of
a live certificate against the pinned reference certificate. -/
def ValidationModeHolds (m : PinningValidationType) (ref live : Certificate) : Prop :=
  match m with
  | .publicKey => live.publicKeyBytes = ref.publicKeyBytes
  | .subject => live.subjectName = ref.subjectName
  | .issuer => live.issuerName = ref.issuerName

/-- Spec-side statement (§4.3): the live certificate satisfies every
requested validation mode of the pinned detail. -/
def DetailSatisfied (d : PinningDetails) (live : Certificate) : Prop :=
  ∀ m ∈ d.validation, ValidationModeHolds m d.certificate live

/-- Spec-side statement (§4.3): the pinned chain has the live chain's length
and every position validates. -/
def ChainMatches (ch : PinningChain) (live : List Certificate) : Prop :=
  ch.details.length = live.length ∧
    ∀ (i : Nat) (h₁ : i < ch.details.length) (h₂ : i < live.length),
      DetailSatisfied (ch.details.get ⟨i, h₁⟩) (live.get ⟨i, h₂⟩)

/-! Concrete fixtures, mirroring the scenarios of the test suite. -/

/-- A certificate parser that rejects everything. -/
def pcNone : List Nat → Option Certificate := fun _ => none

/-- Store with a wrong-typed current interval value shadowing a valid legacy
value. -/
def exShadowStore : PolicyStore :=
  ⟨[("SourceAutoUpdateInterval", .sz "Wrong type"),
    ("SourceAutoUpdateIntervalInMinutes", .dword 20)], []⟩

/-- Store with a valid current interval value shadowing a legacy value. -/
def exNewStore : PolicyStore :=
  ⟨[("SourceAutoUpdateInterval", .dword 1),
    ("SourceAutoUpdateIntervalInMinutes", .dword 3)], []⟩

/-- Store holding only the legacy interval value. -/
def exLegacyStore : PolicyStore :=
  ⟨[("SourceAutoUpdateIntervalInMinutes", .dword 20)], []⟩

/-- Store whose sources container exists with zero children. -/
def exEmptyKeyStore : PolicyStore := ⟨[], [("AllowedSources", [])]⟩

/-- A fully valid source entry document. -/
def exGoodJson : Json :=
  .obj [("Name", .str "s0-name"), ("Arg", .str "s0-arg"), ("Type", .str "s0-type"),
        ("Data", .str "s0-data"), ("Identifier", .str "s0-identifier"),
        ("TrustLevel", .arr [.str "Trusted", .str "StoreOrigin"]),
        ("Explicit", .bool false)]

/-- A second valid source entry document. -/
def exGoodJson2 : Json :=
  .obj [("Name", .str "s2-name"), ("Arg", .str "s2-arg"), ("Type", .str "s2-type"),
        ("Data", .str "s2-data"), ("Identifier", .str "s2-identifier"),
        ("TrustLevel", .arr [.str "StoreOrigin", .str "Trusted"]),
        ("Explicit", .bool true)]

/-- A source entry document missing the mandatory `Type` field. -/
def exBadJson : Json :=
  .obj [("Name", .str "source_name"), ("Arg", .str "source_arg"),
        ("Data", .str "source_data"), ("Identifier", .str "source_identifier")]

/-- Container children: valid, JSON-parse failure, schema failure, valid. -/
def exMixedEntries : List (Option Json) :=
  [some exGoodJson, none, some exBadJson, some exGoodJson2]

/-- Store whose sources container holds the mixed entries. -/
def exMixedStore : PolicyStore := ⟨[], [("AdditionalSources", exMixedEntries)]⟩

/-- The record decoded from `exGoodJson`. -/
def exGoodSource : SourceFromPolicy :=
  ⟨"s0-name", "s0-arg", "s0-type", "s0-data", "s0-identifier",
   ["Trusted", "StoreOrigin"], false, PinningConfiguration.empty⟩

/-- The record decoded from `exGoodJson2`. -/
def exGoodSource2 : SourceFromPolicy :=
  ⟨"s2-name", "s2-arg", "s2-type", "s2-data", "s2-identifier",
   ["StoreOrigin", "Trusted"], true, PinningConfiguration.empty⟩

/-- A valid source entry whose `CertificatePinning` member is malformed. -/
def exBadPinJson : Json :=
  .obj [("Name", .str "source-name"), ("Arg", .str "source-arg"), ("Type", .str "source-type"),
        ("Data", .str "source-data"), ("Identifier", .str "source-identifier"),
        ("TrustLevel", .arr [.str "Trusted"]), ("Explicit", .bool true),
        ("CertificatePinning", .str "not a pinning document")]

/-- Root certificate of the fixture chain. -/
def exRootCert : Certificate := ⟨[1, 2], "root-subject", "root-issuer"⟩

/-- Intermediate certificate of the fixture chain. -/
def exMidCert : Certificate := ⟨[3, 4], "mid-subject", "root-subject"⟩

/-- Leaf certificate of the fixture chain. -/
def exLeafCert : Certificate := ⟨[5, 6], "leaf-subject", "mid-subject"⟩

/-- The pinned chain of the test's pinning document: public key at the root,
subject and issuer at the intermediate and leaf positions. -/
def exPinChain : PinningChain :=
  ⟨[⟨[.publicKey], exRootCert⟩,
    ⟨[.subject, .issuer], exMidCert⟩,
    ⟨[.subject, .issuer], exLeafCert⟩]⟩

/-- A one-alternative pinning configuration over the fixture chain. -/
def exPinCfg : PinningConfiguration := ⟨[exPinChain]⟩

/-- Store enabling the WinGet toggle policy. -/
def exWinGetStore : PolicyStore := ⟨[("EnableAppInstaller", .dword 1)], []⟩

/-- Store disabling the LocalManifestFiles toggle policy, storing a wrong
type for DefaultSource and an out-of-range integer for HashOverride. -/
def exToggleStore : PolicyStore :=
  ⟨[("EnableLocalManifestFiles", .dword 0), ("EnableDefaultSource", .sz "Wrong"),
    ("EnableHashOverride", .dword 7)], []⟩

/-! Theorems. -/

/-- C1: for a value policy with a legacy key alias, a present current key is
decisive: the result is whatever decoding the current value gives (a
validly-typed value is returned, a wrong-typed one yields no value), and it
is determined by the current value alone — the legacy key is never consulted,
as any store agreeing on the current key yields the same result. -/
theorem current_key_blocks_legacy_fallback {α : Type} (decode : RegValue → Option α)
    (store : PolicyStore) (current legacy : String) (v : RegValue)
    (hcur : store.values.lookup current = some v) :
    ReadScalarWith decode store ⟨current, some legacy⟩ = decode v ∧
    ∀ store₂ : PolicyStore, store₂.values.lookup current = some v →
      ReadScalarWith decode store₂ ⟨current, some legacy⟩ =
        ReadScalarWith decode store ⟨current, some legacy⟩ := by
  constructor
  · unfold ReadScalarWith
    rw [hcur]
  · intro store₂ h₂
    unfold ReadScalarWith
    rw [hcur, h₂]

/-- Witness for C1: with a wrong-typed current value shadowing a valid legacy
value the interval policy has no value, and with a valid current value the
legacy value is ignored. -/
theorem current_key_blocks_legacy_fallback_witness :
    ReadScalarWith decodeInteger exShadowStore sourceAutoUpdateIntervalDescriptor = none ∧
    ReadScalarWith decodeInteger exNewStore sourceAutoUpdateIntervalDescriptor = some 1 :=
  ⟨(current_key_blocks_legacy_fallback decodeInteger exShadowStore
      "SourceAutoUpdateInterval" "SourceAutoUpdateIntervalInMinutes"
      (RegValue.sz "Wrong type") rfl).1,
   (current_key_blocks_legacy_fallback decodeInteger exNewStore
      "SourceAutoUpdateInterval" "SourceAutoUpdateIntervalInMinutes"
      (RegValue.dword 1) rfl).1⟩

/-- C3: for a value policy with a legacy key alias, when the current key is
entirely absent and the legacy key holds a validly-typed value, that legacy
value is returned. -/
theorem legacy_fallback_when_current_absent {α : Type} (decode : RegValue → Option α)
    (store : PolicyStore) (current legacy : String) (v : RegValue) (x : α)
    (hcur : store.values.lookup current = none)
    (hleg : store.values.lookup legacy = some v)
    (hdec : decode v = some x) :
    ReadScalarWith decode store ⟨current, some legacy⟩ = some x := by
  unfold ReadScalarWith
  rw [hcur]
  show (store.values.lookup legacy).bind decode = some x
  rw [hleg]
  exact hdec

/-- Witness for C3: only the legacy interval value `20` is present, and it is
returned. -/
theorem legacy_fallback_when_current_absent_witness :
    ReadScalarWith decodeInteger exLegacyStore sourceAutoUpdateIntervalDescriptor = some 20 :=
  legacy_fallback_when_current_absent decodeInteger exLegacyStore
    "SourceAutoUpdateInterval" "SourceAutoUpdateIntervalInMinutes"
    (RegValue.dword 20) 20 rfl rfl rfl

/-- C4: reading a source-list policy distinguishes absence from emptiness: an
absent container sub-key gives no value, while a present container with zero
children gives the empty list as a value. -/
theorem sourcelist_absent_vs_empty (parseCert : List Nat → Option Certificate)
    (store : PolicyStore) (key : String) :
    (store.subkeys.lookup key = none → ReadSourceList parseCert store key = none) ∧
    (store.subkeys.lookup key = some [] → ReadSourceList parseCert store key = some []) := by
  constructor <;> intro h <;> unfold ReadSourceList <;> rw [h] <;> rfl

/-- Witness for C4: the store with no sources container gives no value, and
the store with an empty container gives the empty list. -/
theorem sourcelist_absent_vs_empty_witness :
    ReadSourceList pcNone exWinGetStore "AdditionalSources" = none ∧
    ReadSourceList pcNone exEmptyKeyStore "AllowedSources" = some [] :=
  ⟨(sourcelist_absent_vs_empty pcNone exWinGetStore "AdditionalSources").1 rfl,
   (sourcelist_absent_vs_empty pcNone exEmptyKeyStore "AllowedSources").2 rfl⟩

/-- C7: for every toggle policy, the sentinel included, `IsEnabled` holds
exactly when the resolved state is not Disabled, so both NotConfigured and
Enabled count as enabled. -/
theorem isEnabled_iff_not_disabled (store : PolicyStore) (p : TogglePolicy) :
    IsEnabled store p = true ↔ GetState store p ≠ PolicyState.Disabled := by
  unfold IsEnabled
  cases GetState store p <;> decide

/-- C8: the sentinel policy `None` resolves to NotConfigured in every store
state. -/
theorem none_policy_not_configured (store : PolicyStore) :
    GetState store TogglePolicy.None = PolicyState.NotConfigured := rfl

/-- The boolean per-position check agrees with the spec-side statement of
what the requested validation modes demand. -/
theorem validateCert_iff (d : PinningDetails) (c : Certificate) :
    d.validateCert c = true ↔ DetailSatisfied d c := by
  unfold PinningDetails.validateCert DetailSatisfied
  rw [List.all_eq_true]
  refine forall_congr' fun m => imp_congr Iff.rfl ?_
  cases m <;> simp [ValidationModeHolds]

/-- The boolean chain check agrees with the spec-side statement: equal length
and every position validated. -/
theorem validateChain_iff (ch : PinningChain) (live : List Certificate) :
    ch.validateChain live = true ↔ ChainMatches ch live := by
  unfold PinningChain.validateChain ChainMatches
  rw [Bool.and_eq_true, beq_iff_eq, List.all_eq_true]
  constructor
  · rintro ⟨hlen, hall⟩
    have h₂ : List.Forall₂ (fun d c => DetailSatisfied d c) ch.details live := by
      rw [List.forall₂_iff_zip]
      refine ⟨hlen, ?_⟩
      intro a b hab
      exact (validateCert_iff a b).mp (hall (a, b) hab)
    rw [List.forall₂_iff_get] at h₂
    exact h₂
  · intro h
    have h₂ : List.Forall₂ (fun d c => DetailSatisfied d c) ch.details live := by
      rw [List.forall₂_iff_get]
      exact h
    rw [List.forall₂_iff_zip] at h₂
    refine ⟨h₂.1, ?_⟩
    intro p hp
    exact (validateCert_iff p.1 p.2).mpr (h₂.2 hp)

/-- C2: `Validate` on a live chain returns true on an empty configuration;
on a non-empty configuration it returns true exactly when at least one
alternative pinned chain has the live chain's length and every live
certificate satisfies every requested validation mode of the pinned detail at
its position; otherwise it returns false. Being a total boolean function, it
never throws. -/
theorem validate_characterization (cfg : PinningConfiguration) (live : List Certificate) :
    (cfg.chains = [] → cfg.Validate live = true) ∧
    (cfg.chains ≠ [] →
      (cfg.Validate live = true ↔ ∃ ch ∈ cfg.chains, ChainMatches ch live)) := by
  constructor
  · intro h
    unfold PinningConfiguration.Validate
    rw [h]
    rfl
  · intro h
    unfold PinningConfiguration.Validate
    rw [if_neg (by simpa using h), List.any_eq_true]
    exact exists_congr fun ch => and_congr_right fun _ => validateChain_iff ch live

/-- Witness for C2: the empty configuration accepts the fixture leaf chain,
and the three-certificate pin of the fixture matches the exact fixture
chain. -/
theorem validate_characterization_witness :
    PinningConfiguration.empty.Validate [exLeafCert] = true ∧
    (∃ ch ∈ exPinCfg.chains, ChainMatches ch [exRootCert, exMidCert, exLeafCert]) :=
  ⟨(validate_characterization PinningConfiguration.empty [exLeafCert]).1 rfl,
   ((validate_characterization exPinCfg [exRootCert, exMidCert, exLeafCert]).2
      (by decide)).mp rfl⟩

/-- For a toggle policy with a key name, `GetState` classifies the stored
value: DWORD 1 is Enabled, DWORD 0 is Disabled, and any other integer, a
wrong-typed value, or an absent key is NotConfigured. -/
theorem getState_classify (store : PolicyStore) (p : TogglePolicy) (n : String)
    (hp : p.regValueName = some n) :
    (store.values.lookup n = some (RegValue.dword 1) →
      GetState store p = PolicyState.Enabled) ∧
    (store.values.lookup n = some (RegValue.dword 0) →
      GetState store p = PolicyState.Disabled) ∧
    (∀ v : Int, v ≠ 1 → v ≠ 0 → store.values.lookup n = some (RegValue.dword v) →
      GetState store p = PolicyState.NotConfigured) ∧
    (∀ s : String, store.values.lookup n = some (RegValue.sz s) →
      GetState store p = PolicyState.NotConfigured) ∧
    (store.values.lookup n = none → GetState store p = PolicyState.NotConfigured) := by
  have hG : GetState store p =
      (match (store.values.lookup n).bind decodeInteger with
        | some 1 => PolicyState.Enabled
        | some 0 => PolicyState.Disabled
        | _ => PolicyState.NotConfigured) := by
    unfold GetState
    rw [hp]
  rw [hG]
  refine ⟨?_, ?_, ?_, ?_, ?_⟩
  · intro h
    rw [h]
    rfl
  · intro h
    rw [h]
    rfl
  · intro v h1 h0 h
    rw [h]
    show (match some v with
      | some 1 => PolicyState.Enabled
      | some 0 => PolicyState.Disabled
      | _ => PolicyState.NotConfigured) = PolicyState.NotConfigured
    split
    · rename_i heq
      exact absurd (Option.some.inj heq) h1
    · rename_i heq
      exact absurd (Option.some.inj heq) h0
    · rfl
  · intro s h
    rw [h]
    rfl
  · intro h
    rw [h]
    rfl

/-- C6: for every non-sentinel toggle policy, `GetState` resolves the integer
at the policy's key and classifies it: 1 gives Enabled, 0 gives Disabled, and
any other value, a wrong-typed value, or an absent key gives NotConfigured. -/
theorem toggle_state_classification (store : PolicyStore) (p : TogglePolicy)
    (hp : p ≠ TogglePolicy.None) :
    ∃ n, p.regValueName = some n ∧
      ((store.values.lookup n = some (RegValue.dword 1) →
        GetState store p = PolicyState.Enabled) ∧
      (store.values.lookup n = some (RegValue.dword 0) →
        GetState store p = PolicyState.Disabled) ∧
      (∀ v : Int, v ≠ 1 → v ≠ 0 → store.values.lookup n = some (RegValue.dword v) →
        GetState store p = PolicyState.NotConfigured) ∧
      (∀ s : String, store.values.lookup n = some (RegValue.sz s) →
        GetState store p = PolicyState.NotConfigured) ∧
      (store.values.lookup n = none → GetState store p = PolicyState.NotConfigured)) := by
  cases p
  case None => exact absurd rfl hp
  all_goals exact ⟨_, rfl, getState_classify store _ _ rfl⟩

/-- Witness for C6: in the fixture stores, WinGet (value 1) is Enabled,
LocalManifestFiles (value 0) is Disabled, DefaultSource (string value) is
NotConfigured and HashOverride (value 7) is NotConfigured. -/
theorem toggle_state_classification_witness :
    GetState exWinGetStore TogglePolicy.WinGet = PolicyState.Enabled ∧
    GetState exToggleStore TogglePolicy.LocalManifestFiles = PolicyState.Disabled ∧
    GetState exToggleStore TogglePolicy.DefaultSource = PolicyState.NotConfigured ∧
    GetState exToggleStore TogglePolicy.HashOverride = PolicyState.NotConfigured := by
  refine ⟨?_, ?_, ?_, ?_⟩
  · obtain ⟨n, hn, h1, -⟩ :=
      toggle_state_classification exWinGetStore TogglePolicy.WinGet (by decide)
    cases hn
    exact h1 rfl
  · obtain ⟨n, hn, -, h0, -⟩ :=
      toggle_state_classification exToggleStore TogglePolicy.LocalManifestFiles (by decide)
    cases hn
    exact h0 rfl
  · obtain ⟨n, hn, -, -, -, hsz, -⟩ :=
      toggle_state_classification exToggleStore TogglePolicy.DefaultSource (by decide)
    cases hn
    exact hsz "Wrong" rfl
  · obtain ⟨n, hn, -, -, hother, -⟩ :=
      toggle_state_classification exToggleStore TogglePolicy.HashOverride (by decide)
    cases hn
    exact hother 7 (by decide) (by decide) rfl

/-- A source entry decodes successfully exactly when every mandatory field is
present with its expected JSON type; the optional pinning member can never
make the decode fail. -/
theorem readSource_isSome (parseCert : List Nat → Option Certificate) (j : Json) :
    (ReadSource parseCert j).isSome = mandatoryFieldsValid j := by
  unfold ReadSource mandatoryFieldsValid
  cases (j.getField "Name").bind Json.asString <;>
  cases (j.getField "Arg").bind Json.asString <;>
  cases (j.getField "Type").bind Json.asString <;>
  cases (j.getField "Data").bind Json.asString <;>
  cases (j.getField "Identifier").bind Json.asString <;>
  cases (j.getField "TrustLevel").bind Json.asStringArray <;>
  cases (j.getField "Explicit").bind Json.asBool <;>
  rfl

/-- C5: when the container sub-key is present, the policy always has a value:
the children that fail JSON parsing or lack a validly-typed mandatory field
are exactly the ones dropped, dropping a malformed child leaves the decoding
of the remaining children untouched (so the survivors keep their original
relative order), and the result is the in-order decode of the children. -/
theorem sourcelist_partial_failure (parseCert : List Nat → Option Certificate)
    (store : PolicyStore) (key : String) (es : List (Option Json))
    (hkey : store.subkeys.lookup key = some es) :
    ReadSourceList parseCert store key = some (es.filterMap (decodeEntry parseCert)) ∧
    (∀ e : Option Json, (decodeEntry parseCert e).isSome =
      (match e with
        | some j => mandatoryFieldsValid j
        | none => false)) ∧
    (∀ (es₁ es₂ : List (Option Json)) (bad : Option Json),
      decodeEntry parseCert bad = none →
      (es₁ ++ bad :: es₂).filterMap (decodeEntry parseCert) =
        (es₁ ++ es₂).filterMap (decodeEntry parseCert)) := by
  refine ⟨?_, ?_, ?_⟩
  · unfold ReadSourceList
    rw [hkey]
    rfl
  · intro e
    cases e with
    | none => rfl
    | some j => exact readSource_isSome parseCert j
  · intro es₁ es₂ bad hbad
    rw [List.filterMap_append, List.filterMap_append, List.filterMap_cons_none hbad]

/-- Witness for C5: in the mixed fixture container (valid, JSON-parse
failure, missing-field entry, valid) exactly the two valid records survive,
in their original order. -/
theorem sourcelist_partial_failure_witness :
    ReadSourceList pcNone exMixedStore "AdditionalSources" =
      some [exGoodSource, exGoodSource2] := by
  have h := (sourcelist_partial_failure pcNone exMixedStore "AdditionalSources"
      exMixedEntries rfl).1
  rw [h]
  rfl

/-- C9: a source entry whose mandatory fields are all valid but whose
`CertificatePinning` member is malformed still decodes, and carries the empty
pinning configuration rather than being dropped. -/
theorem malformed_pinning_not_dropped (parseCert : List Nat → Option Certificate)
    (j : Json) (name arg stype data ident : String) (tl : List String) (expl : Bool)
    (p : Json)
    (h1 : (j.getField "Name").bind Json.asString = some name)
    (h2 : (j.getField "Arg").bind Json.asString = some arg)
    (h3 : (j.getField "Type").bind Json.asString = some stype)
    (h4 : (j.getField "Data").bind Json.asString = some data)
    (h5 : (j.getField "Identifier").bind Json.asString = some ident)
    (h6 : (j.getField "TrustLevel").bind Json.asStringArray = some tl)
    (h7 : (j.getField "Explicit").bind Json.asBool = some expl)
    (hpin : j.getField "CertificatePinning" = some p)
    (hbad : decodePinningChains parseCert p = none) :
    ReadSource parseCert j =
      some ⟨name, arg, stype, data, ident, tl, expl, PinningConfiguration.empty⟩ := by
  have hload : PinningConfiguration.LoadFrom parseCert p = PinningConfiguration.empty := by
    unfold PinningConfiguration.LoadFrom
    rw [hbad]
  unfold ReadSource
  rw [h1, h2, h3, h4, h5, h6, h7, hpin]
  show some (⟨name, arg, stype, data, ident, tl, expl,
      PinningConfiguration.LoadFrom parseCert p⟩ : SourceFromPolicy) =
    some (⟨name, arg, stype, data, ident, tl, expl,
      PinningConfiguration.empty⟩ : SourceFromPolicy)
  rw [hload]

/-- Witness for C9: the fixture entry whose pinning member is a JSON string
decodes to a record with the empty pinning configuration. -/
theorem malformed_pinning_not_dropped_witness :
    ReadSource pcNone exBadPinJson =
      some ⟨"source-name", "source-arg", "source-type", "source-data",
            "source-identifier", ["Trusted"], true, PinningConfiguration.empty⟩ :=
  malformed_pinning_not_dropped pcNone exBadPinJson
    "source-name" "source-arg" "source-type" "source-data" "source-identifier"
    ["Trusted"] true (Json.str "not a pinning document")
    rfl rfl rfl rfl rfl rfl rfl rfl rfl

/-- Serializing a list of strings as JSON strings decodes back to the same
list. -/
theorem asStringList_map_str (l : List String) :
    Json.asStringList (l.map Json.str) = some l := by
  induction l with
  | nil => rfl
  | cons a t ih =>
    show (Json.asStringList (t.map Json.str)).bind (fun rest => some (a :: rest)) = _
    rw [ih]
    rfl

/-- A source entry with valid mandatory fields and no `CertificatePinning`
member decodes to the record of its fields with the empty pinning
configuration. -/
theorem readSource_no_pinning (parseCert : List Nat → Option Certificate)
    (j : Json) (name arg stype data ident : String) (tl : List String) (expl : Bool)
    (h1 : (j.getField "Name").bind Json.asString = some name)
    (h2 : (j.getField "Arg").bind Json.asString = some arg)
    (h3 : (j.getField "Type").bind Json.asString = some stype)
    (h4 : (j.getField "Data").bind Json.asString = some data)
    (h5 : (j.getField "Identifier").bind Json.asString = some ident)
    (h6 : (j.getField "TrustLevel").bind Json.asStringArray = some tl)
    (h7 : (j.getField "Explicit").bind Json.asBool = some expl)
    (hpin : j.getField "CertificatePinning" = none) :
    ReadSource parseCert j =
      some ⟨name, arg, stype, data, ident, tl, expl, PinningConfiguration.empty⟩ := by
  unfold ReadSource
  rw [h1, h2, h3, h4, h5, h6, h7, hpin]
  rfl

/-- C10: decoding the JSON produced by a source's `ToJsonString` yields a
record whose Name, Arg, Type, Data, Identifier, TrustLevel (in order) and
Explicit fields equal the original's; the serialization carries no pinning,
so the decoded record holds the empty pinning configuration. -/
theorem toJson_roundtrip (parseCert : List Nat → Option Certificate)
    (s : SourceFromPolicy) :
    ReadSource parseCert s.ToJson =
      some ⟨s.Name, s.Arg, s.SourceType, s.Data, s.Identifier, s.TrustLevel,
            s.Explicit, PinningConfiguration.empty⟩ :=
  readSource_no_pinning parseCert s.ToJson s.Name s.Arg s.SourceType s.Data
    s.Identifier s.TrustLevel s.Explicit
    rfl rfl rfl rfl rfl (asStringList_map_str s.TrustLevel) rfl rfl

end WingetPolicy
